import Mathlib

/-!
Verification of the gnn_tracking point-cloud builder and TCN trainer.

The development shallowly embeds the two source files
`gnn_tracking/preprocessing/point_cloud_builder.py` and
`gnn_tracking/training/tcn_trainer.py`.  Pandas data frames are modelled as
lists of rows, a row being an association list from column name to a rational
value; machine floats are modelled by the rationals, extended with signed
infinities and NaN where the non-finite behaviour matters.  The
trigonometric quantities appearing in `sector_hits` (`np.cos`, `np.sin`,
`np.arctan` of the sector angle) enter the membership computation only
through their values, so the sector-membership functions take those values
as parameters and separate `Prop`-level definitions over `ℝ` record which
real functions the source applies.
-/

namespace GnnTracking

/-! ### Data-frame model (pandas tables in `point_cloud_builder.py`) -/

/-- A data-frame row: association list from column name to value. -/
abbrev Row := List (String × ℚ)

/-- A data frame: list of rows. -/
abbrev DF := List Row

/-- Column lookup on a row (`row[col]`); absent columns read as `0`. -/
def getCol (r : Row) (k : String) : ℚ :=
  ((r.find? (fun p => p.1 == k)).map (fun p => p.2)).getD 0

/-- Column assignment on a row (`hits[col] = v` acts row-wise): replace the
value in place if the column exists, otherwise append the new column. -/
def setCol (r : Row) (k : String) (v : ℚ) : Row :=
  if r.any (fun p => p.1 == k) then r.map (fun p => if p.1 == k then (k, v) else p)
  else r ++ [(k, v)]

def uCol : String := "u"
def vCol : String := "v"
def urCol : String := "ur"
def vrCol : String := "vr"
def ptCol : String := "pt"

/-! ### Sector geometry (`PointCloudBuilder.sector_hits`, lines 110-134) -/

/-- The configuration fields of `PointCloudBuilder` read by `sector_hits`. -/
structure SectorConfig where
  n_sectors : ℕ
  sector_di : ℚ
  sector_ds : ℚ
  measurement_mode : Bool
  thld : ℚ
deriving DecidableEq

/-- The dynamic return shape of `sector_hits`: the `n_sectors == 1` branch
returns the bare hit table, every other branch returns the pair of the
extended sector and the measurements dictionary. -/
inductive SectorResult where
  | table (df : DF)
  | pair (df : DF) (meas : List (String × ℚ))
deriving DecidableEq

/-- Line 113: `theta = s*2*np.pi/self.n_sectors`. -/
def sector_theta_eq (n_sectors s : ℕ) (theta : ℝ) : Prop :=
  theta = s * 2 * Real.pi / n_sectors

/-- Line 114: `slope = np.arctan(theta)` — the source computes the boundary
slope as the arctangent of the sector angle. -/
def sector_slope_eq (theta slope : ℝ) : Prop :=
  slope = Real.arctan theta

/-- Lines 115-116: `hits['ur'] = u*cos(theta) - v*sin(theta)`,
`hits['vr'] = u*sin(theta) + v*cos(theta)`, parameterised by the values of
`np.cos(theta)` and `np.sin(theta)`. -/
def rotate_uv (cosT sinT : ℚ) (hits : DF) : DF :=
  (hits.map (fun r => setCol r urCol (getCol r uCol * cosT - getCol r vCol * sinT))).map
    (fun r => setCol r vrCol (getCol r uCol * sinT + getCol r vCol * cosT))

/-- Lines 118-122: the extended sector filter,
`(vr > -ds*slope*ur - di) & (vr < ds*slope*ur + di) & (ur > 0)`. -/
def extended_sector (ds di slope : ℚ) (hits : DF) : DF :=
  hits.filter (fun r =>
    decide (getCol r vrCol > -(ds * slope * getCol r urCol) - di) &&
    decide (getCol r vrCol < ds * slope * getCol r urCol + di) &&
    decide (getCol r urCol > 0))

/-- Lines 126-128: the strict (diagnostic) sector filter,
`(vr > -slope*ur) & (vr < slope*ur) & (ur >= 0)`. -/
def strict_sector (slope : ℚ) (hits : DF) : DF :=
  hits.filter (fun r =>
    decide (getCol r vrCol > -(slope * getCol r urCol)) &&
    decide (getCol r vrCol < slope * getCol r urCol) &&
    decide (getCol r urCol ≥ 0))

/-- Lines 124-133: the measurements dictionary (only filled in measurement
mode).  The source's `len(extended)/len(sector)` division is total here
(`ℚ` division by zero yields `0`); the source would raise on an empty strict
sector, which no claim depends on. -/
def sector_measurements (cfg : SectorConfig) (slope : ℚ) (hits : DF) : List (String × ℚ) :=
  if cfg.measurement_mode then
    [("sector_size", ((strict_sector slope hits).length : ℚ)),
     ("extended_sector_size", ((extended_sector cfg.sector_ds cfg.sector_di slope hits).length : ℚ)),
     ("sector_size_ratio",
       ((extended_sector cfg.sector_ds cfg.sector_di slope hits).length : ℚ) /
         ((strict_sector slope hits).length : ℚ))]
  else []

/-- Lines 110-134, `PointCloudBuilder.sector_hits`.  The first component of
the result is the state of the `hits` table after the call (the source
assigns the `ur`/`vr` columns in place on its argument); the second is the
returned value.  `cosT`, `sinT`, `slope` are the values of `np.cos(theta)`,
`np.sin(theta)`, `np.arctan(theta)` for `theta = s*2*pi/n_sectors`. -/
def sector_hits (cfg : SectorConfig) (cosT sinT slope : ℚ) (hits : DF) : DF × SectorResult :=
  if cfg.n_sectors = 1 then (hits, SectorResult.table hits)
  else
    let hits2 := rotate_uv cosT sinT hits
    (hits2,
      SectorResult.pair (extended_sector cfg.sector_ds cfg.sector_di slope hits2)
        (sector_measurements cfg slope hits2))

/-! ### Artifact caching (`PointCloudBuilder.__init__` lines 51-62 and
`process` lines 160-172) -/

/-- Lines 58, 161: the artifact file name `data{evtid}_s{sector}.pt`. -/
def artifact_name (evtid s : ℕ) : String :=
  "data" ++ toString evtid ++ "_s" ++ toString s ++ ".pt"

/-- Lines 58-61: at construction, an event is flagged as existing exactly
when its sector-0 artifact `data{evtid}_s0.pt` is among the output-directory
listing. -/
def exists_flag (outfiles : List String) (evtid : ℕ) : Bool :=
  outfiles.contains (artifact_name evtid 0)

/-- What `process` does with one (event, sector) artifact. -/
inductive SectorAction where
  | load
  | computeAndPersist
deriving DecidableEq

/-- Lines 162-172: for every sector of an event, `process` loads the
artifact when `self.exists[evtid] and not self.redo`, otherwise computes and
persists it.  The decision does not depend on the sector index. -/
def process_action (exists_ : Bool) (redo : Bool) : SectorAction :=
  if exists_ && !redo then SectorAction.load else SectorAction.computeAndPersist

/-- The caching rule asserted by the spec (§6, "existence of this file under
the output directory at startup is how cache-hit state is determined" with
the artifact as the unit of caching): each individual (event, sector)
artifact is loaded exactly when its own file exists and `redo` is off. -/
def per_artifact_action (outfiles : List String) (evtid s : ℕ) (redo : Bool) : SectorAction :=
  if outfiles.contains (artifact_name evtid s) && !redo then SectorAction.load
  else SectorAction.computeAndPersist

/-! ### Training step and OOM recovery (`TCNTrainer.training_step`,
lines 259-288) -/

/-- Substring test on character lists (`needle` occurs inside `hay`). -/
def contains_sub (needle : List Char) : List Char → Bool
  | [] => needle.isEmpty
  | c :: t => needle.isPrefixOf (c :: t) || contains_sub needle t

/-- Line 274: `"out of memory" in str(e).casefold()`. -/
def is_oom_message (msg : String) : Bool :=
  contains_sub ("out of memory".toList) (msg.toList.map Char.toLower)

/-- The outcome of the body of one training step (preprocessing, model
evaluation and loss computation are external collaborators; a step body
either produces a loss or raises a `RuntimeError` with a message). -/
inductive BodyOutcome where
  | ok (loss : ℚ)
  | runtimeError (msg : String)

/-- What one `training_step` call does, as seen by its caller. -/
inductive StepResult where
  | loss (l : ℚ)
  | skipped
  | raised (msg : String)
deriving DecidableEq

/-- Lines 259-288, `TCNTrainer.training_step`: state transition on the
consecutive-OOM counter `self._n_oom_errors_in_a_row`, paired with the
observable result.  An OOM `RuntimeError` increments the counter, re-raises
if the counter then exceeds 10 and otherwise skips the batch; any other
`RuntimeError` re-raises with the counter untouched; a successful body
resets the counter to 0. -/
def training_step (n_oom_errors_in_a_row : ℕ) (body : BodyOutcome) : ℕ × StepResult :=
  match body with
  | BodyOutcome.ok l => (0, StepResult.loss l)
  | BodyOutcome.runtimeError msg =>
      if is_oom_message msg then
        let n := n_oom_errors_in_a_row + 1
        if n > 10 then (n, StepResult.raised msg) else (n, StepResult.skipped)
      else
        (n_oom_errors_in_a_row, StepResult.raised msg)

/-- A sequence of `training_step` calls threading the counter; a re-raised
error terminates the sequence. -/
def run_training_steps (n_oom : ℕ) : List BodyOutcome → List StepResult
  | [] => []
  | b :: rest =>
      match training_step n_oom b with
      | (_, StepResult.raised msg) => [StepResult.raised msg]
      | (n', StepResult.loss l) => StepResult.loss l :: run_training_steps n' rest
      | (n', StepResult.skipped) => StepResult.skipped :: run_training_steps n' rest

/-! ### Loss aggregation (`TCNTrainer.get_batch_losses`, lines 164-187) -/

/-- Torch scalar values as seen by the loss aggregator: a finite number, a
signed infinity, or NaN.  Only the operations `get_batch_losses` performs
(sum, scalar multiple, `torch.isnan`) are modelled, with IEEE semantics. -/
inductive FloatV where
  | fin (q : ℚ)
  | inf
  | ninf
  | nan
deriving DecidableEq

/-- IEEE addition on extended values. -/
def FloatV.add : FloatV → FloatV → FloatV
  | FloatV.fin a, FloatV.fin b => FloatV.fin (a + b)
  | FloatV.fin _, FloatV.inf => FloatV.inf
  | FloatV.inf, FloatV.fin _ => FloatV.inf
  | FloatV.inf, FloatV.inf => FloatV.inf
  | FloatV.fin _, FloatV.ninf => FloatV.ninf
  | FloatV.ninf, FloatV.fin _ => FloatV.ninf
  | FloatV.ninf, FloatV.ninf => FloatV.ninf
  | FloatV.inf, FloatV.ninf => FloatV.nan
  | FloatV.ninf, FloatV.inf => FloatV.nan
  | FloatV.nan, _ => FloatV.nan
  | _, FloatV.nan => FloatV.nan

/-- IEEE multiplication by a finite weight (`weights[k] * losses[k]`). -/
def FloatV.smul (w : ℚ) : FloatV → FloatV
  | FloatV.fin q => FloatV.fin (w * q)
  | FloatV.inf => if w > 0 then FloatV.inf else if w < 0 then FloatV.ninf else FloatV.nan
  | FloatV.ninf => if w > 0 then FloatV.ninf else if w < 0 then FloatV.inf else FloatV.nan
  | FloatV.nan => FloatV.nan

/-- Line 183: `torch.isnan(total)`. -/
def FloatV.isnan : FloatV → Bool
  | FloatV.nan => true
  | _ => false

/-- Finiteness of an extended value (NaN and the infinities are not finite). -/
def FloatV.isfinite : FloatV → Bool
  | FloatV.fin _ => true
  | _ => false

/-- The shape of a loss-function return or of a weight specification: a
scalar, a list, or a keyed mapping (`loss_weight_type` and the docstring of
`loss_functions`, lines 54-57 and 177-181). -/
inductive LossReturn (α : Type) where
  | scalar (v : α)
  | list (vs : List α)
  | mapping (m : List (String × α))

/-- Modelled from the spec: `unpack_loss_returns` is imported from
`gnn_tracking.metrics.losses`, which is not among the source files.  Per
spec §4.4 a loss function produces "either a scalar, a list, or a keyed
mapping of sub-losses", which is unpacked into sub-losses keyed under the
loss name (list entries and mapping keys are suffixed onto the name). -/
def unpack_loss_returns {α : Type} (key : String) : LossReturn α → List (String × α)
  | LossReturn.scalar v => [(key, v)]
  | LossReturn.list vs => vs.enum.map (fun p => (key ++ "_" ++ toString p.1, p.2))
  | LossReturn.mapping m => m.map (fun p => (key ++ "_" ++ p.1, p.2))

/-- Python `dict.update`: overwrite existing keys in place, append new keys
in order. -/
def dict_update {α : Type} (d new : List (String × α)) : List (String × α) :=
  new.foldl
    (fun acc p =>
      if acc.any (fun q => q.1 == p.1) then acc.map (fun q => if q.1 == p.1 then p else q)
      else acc ++ [p])
    d

/-- Keyed lookup with a default (`collections.defaultdict` read). -/
def dict_getD {α : Type} (d : List (String × α)) (k : String) (dflt : α) : α :=
  ((d.find? (fun p => p.1 == k)).map (fun p => p.2)).getD dflt

/-- Keyed lookup returning an `Option` (Python `dict.get`). -/
def dict_get? {α : Type} (d : List (String × α)) (k : String) : Option α :=
  (d.find? (fun p => p.1 == k)).map (fun p => p.2)

/-- The `loss_functions` configuration together with the values the loss
functions produce on the current bundle: loss name paired with the evaluated
loss return and the weight specification. -/
abbrev LossConfig := List (String × LossReturn FloatV × LossReturn ℚ)

/-- Lines 175-181, the `losses` dictionary:
`losses.update(unpack_loss_returns(key, loss_func(**model_output)))` over
the configured loss functions. -/
def batch_losses_dict (cfg : LossConfig) : List (String × FloatV) :=
  cfg.foldl (fun acc e => dict_update acc (unpack_loss_returns e.1 e.2.1)) []

/-- Lines 176-181, the `weights` defaultdict (default `1.0`):
`weights.update(unpack_loss_returns(key, these_weights))`. -/
def batch_weights_dict (cfg : LossConfig) : List (String × ℚ) :=
  cfg.foldl (fun acc e => dict_update acc (unpack_loss_returns e.1 e.2.2)) []

/-- Line 182: `total = sum(weights[k] * losses[k] for k in losses)`. -/
def batch_total (cfg : LossConfig) : FloatV :=
  (batch_losses_dict cfg).foldl
    (fun t p => t.add (FloatV.smul (dict_getD (batch_weights_dict cfg) p.1 1) p.2))
    (FloatV.fin 0)

/-- Lines 164-187, `TCNTrainer.get_batch_losses`: `none` models the raised
`RuntimeError` (the NaN check on line 183), `some` the returned triple of
total, individual losses and weights. -/
def get_batch_losses (cfg : LossConfig) :
    Option (FloatV × List (String × FloatV) × List (String × ℚ)) :=
  if (batch_total cfg).isnan then none
  else some (batch_total cfg, batch_losses_dict cfg, batch_weights_dict cfg)

/-! ### Clustering-input accumulation (`TCNTrainer.test_step`,
lines 310-352) -/

/-- Python truthiness of the `max_batches : int | None` argument
(`if max_batches and ...`): `None` and `0` are falsy. -/
def truthy : Option ℕ → Bool
  | none => false
  | some 0 => false
  | some (_ + 1) => true

/-- The per-key lists of accumulated per-batch arrays; an array is
represented by the index of the batch it came from. -/
abbrev ClusterAccum := String → List ℕ

/-- The evaluation loop of `test_step` restricted to what it does to
`cluster_eval_input` (lines 318-319 and 345-352): iterate the loader
batches (`n` of them left, current index `idx`), break once
`max_batches and _batch_idx > max_batches`, and on every batch with
`clustering_functions` configured and `_batch_idx <= max_batches_for_clustering`
append one array per required clustering-input key. -/
def test_step_accum (keys : List String) (hasCF : Bool) (maxBC : ℕ) (mb : Option ℕ) :
    ℕ → ℕ → ClusterAccum → ClusterAccum
  | _, 0, acc => acc
  | idx, Nat.succ m, acc =>
      if truthy mb && decide (idx > mb.getD 0) then acc
      else
        test_step_accum keys hasCF maxBC mb (idx + 1) m
          (if hasCF && decide (idx ≤ maxBC) then
            fun k => if keys.contains k then acc k ++ [idx] else acc k
          else acc)

/-- One `test_step` call over a loader with `n` batches, starting from the
empty accumulator. -/
def test_step_cluster_accum (keys : List String) (hasCF : Bool) (maxBC : ℕ)
    (mb : Option ℕ) (n : ℕ) : ClusterAccum :=
  test_step_accum keys hasCF maxBC mb 0 n (fun _ => [])

/-! ### Edge pT mask (`TCNTrainer._edge_pt_mask` lines 290-295 and
`evaluate_ec_metrics_with_pt_thld` lines 401-440) -/

/-- Lines 290-295: keep an edge when `(pt_a > pt_min) | (pt_b > pt_min)`,
with `pt_a`, `pt_b` the endpoint momenta gathered through `edge_index`. -/
def edge_pt_mask (edge_index : List (ℕ × ℕ)) (pt : List ℚ) (pt_min : ℚ) : List Bool :=
  edge_index.map (fun e =>
    decide (pt.getD e.1 0 > pt_min) || decide (pt.getD e.2 0 > pt_min))

/-- Torch boolean-mask indexing `xs[mask]`. -/
def mask_select {α : Type} (xs : List α) (mask : List Bool) : List α :=
  ((xs.zip mask).filter (fun p => p.2)).map (fun p => p.1)

/-- Line 420: `predicted = model_output["w"][edge_pt_mask]`. -/
def ec_selected_predictions (w : List ℚ) (edge_index : List (ℕ × ℕ)) (pt : List ℚ)
    (pt_min : ℚ) : List ℚ :=
  mask_select w (edge_pt_mask edge_index pt pt_min)

/-- Line 421: `true = model_output["y"][edge_pt_mask]`. -/
def ec_selected_labels (y : List ℚ) (edge_index : List (ℕ × ℕ)) (pt : List ℚ)
    (pt_min : ℚ) : List ℚ :=
  mask_select y (edge_pt_mask edge_index pt pt_min)

/-! ### Cluster metric evaluation (`TCNTrainer._evaluate_cluster_metrics`,
lines 370-399) -/

/-- The object a clustering function may return (`.metrics` and
`.best_params`, spec §6 contract). -/
structure ClusterResult where
  metrics : List (String × ℚ)
  best_params : List (String × ℚ)

/-- A clustering function: receives the accumulated inputs, the epoch and
the warm-start parameters, and returns `none` (skip) or a result. -/
abbrev ClusterFct (Input : Type) :=
  Input → ℕ → Option (List (String × ℚ)) → Option ClusterResult

/-- Line 395: the metric key `best_{fct_name}_{param}`. -/
def best_param_key (fct_name param : String) : String :=
  "best_" ++ fct_name ++ "_" ++ param

/-- The loop body of `_evaluate_cluster_metrics` for one clustering function
(state: metrics dictionary and `self._best_cluster_params`). -/
def ecm_step {Input : Type} (input : Input) (epoch : ℕ)
    (st : List (String × ℚ) × List (String × List (String × ℚ)))
    (e : String × ClusterFct Input) :
    List (String × ℚ) × List (String × List (String × ℚ)) :=
  match e.2 input epoch (dict_get? st.2 e.1) with
  | none => st
  | some r =>
      (dict_update (dict_update st.1 r.metrics)
        (r.best_params.map (fun p => (best_param_key e.1 p.1, p.2))),
       dict_update st.2 [(e.1, r.best_params)])

/-- Lines 370-399, `TCNTrainer._evaluate_cluster_metrics`: fold the loop
body over the configured clustering functions, starting from an empty
metrics dictionary and the current best-parameter cache; returns the metrics
and the updated cache. -/
def evaluate_cluster_metrics {Input : Type} (input : Input) (epoch : ℕ)
    (fns : List (String × ClusterFct Input))
    (best_cluster_params : List (String × List (String × ℚ))) :
    List (String × ℚ) × List (String × List (String × ℚ)) :=
  fns.foldl (ecm_step input epoch) ([], best_cluster_params)

/-! ### Statement-level definitions -/

/-- All sub-losses produced by unpacking every configured loss function, in
configuration order (the spec-side reading of "sum over all unpacked
sub-losses"). -/
def all_unpacked_losses (cfg : LossConfig) : List (String × FloatV) :=
  (cfg.map (fun e => unpack_loss_returns e.1 e.2.1)).flatten

/-- The spec-side total of claim C4: the sum over all unpacked sub-losses of
the weight of that sub-loss key (default `1.0`) times the sub-loss value. -/
def weighted_sum_unpacked (cfg : LossConfig) : FloatV :=
  (all_unpacked_losses cfg).foldl
    (fun t p => t.add (FloatV.smul (dict_getD (batch_weights_dict cfg) p.1 1) p.2))
    (FloatV.fin 0)

/-- A sample hit table with a single row, used as concrete input. -/
def oneRowHits : DF := [[(uCol, 1), (vCol, 2)]]

/-- A sample sector configuration with two sectors. -/
def twoSectorCfg : SectorConfig :=
  { n_sectors := 2, sector_di := 1/10000, sector_ds := 11/10,
    measurement_mode := false, thld := 1/2 }

/-- A sample sector configuration with one sector. -/
def oneSectorCfg : SectorConfig :=
  { n_sectors := 1, sector_di := 1/10000, sector_ds := 11/10,
    measurement_mode := false, thld := 1/2 }

def lKey : String := "l"
def xKey : String := "x"

/-- A sample OOM error message (case-insensitive match, as `casefold`). -/
def oomMsgSample : String := "CUDA Out Of Memory: tried to allocate"

/-- A sample non-OOM runtime error message. -/
def otherMsgSample : String := "size mismatch in matmul"

/-- A sample loss configuration exercising all three return shapes (scalar,
list, mapping) with explicit weights. -/
def lossCfgSample : LossConfig :=
  [("a", LossReturn.scalar (FloatV.fin 2), LossReturn.scalar 3),
   ("b", LossReturn.list [FloatV.fin 1, FloatV.fin 2], LossReturn.list [10, 20]),
   ("c", LossReturn.mapping [("x", FloatV.fin 5)], LossReturn.mapping [("x", 7)])]

/-- A sample clustering function that always skips (returns `None`). -/
def skipFctSample : ClusterFct ℕ := fun _ _ _ => none

/-- A sample clustering function that always returns a result object. -/
def constFctSample : ClusterFct ℕ :=
  fun _ _ _ => some { metrics := [("m", 1)], best_params := [("p", 2)] }

def nKey : String := "n"
def gKey : String := "g"

/-! ## Theorems -/

/-- Claim C5 (code bug witness): with `n_sectors = 1` the sector transform
returns the input hit table itself, unchanged — but as a bare table, not in
the `(extended_sector, measurements)` pair shape of the `n_sectors > 1`
case, so the tuple unpacking in `process` (line 166) fails on it. -/
theorem sector_hits_single_sector_shape :
    sector_hits oneSectorCfg 1 0 1 oneRowHits = (oneRowHits, SectorResult.table oneRowHits)
    ∧ ∀ df meas, SectorResult.table oneRowHits ≠ SectorResult.pair df meas := by
  refine ⟨rfl, ?_⟩
  intro df meas h
  exact SectorResult.noConfusion h

/-- Claim C6 (counterexample): the cache-hit decision is not determined by
the per-(event, sector) artifact file.  With only `data1_s1.pt` present and
`redo = False`, the code recomputes sector 1 of event 1 (its flag looks for
`data1_s0.pt` only), while the per-artifact rule of the claim would load
it. -/
theorem cache_decision_not_per_artifact :
    process_action (exists_flag [artifact_name 1 1] 1) false = SectorAction.computeAndPersist
    ∧ per_artifact_action [artifact_name 1 1] 1 1 false = SectorAction.load := by
  decide

/-- Claim C6 (amended): the unit of caching is the event, keyed on its
sector-0 artifact: for every output listing, event and `redo` flag, each
sector of the event is loaded exactly when `data{evtid}_s0.pt` was in the
listing and `redo` is off, and otherwise computed and persisted (the
decision is the same for every sector index of the event). -/
theorem cache_unit_is_event_level :
    ∀ (outfiles : List String) (evtid : ℕ) (redo : Bool),
      process_action (exists_flag outfiles evtid) redo = SectorAction.load
        ↔ artifact_name evtid 0 ∈ outfiles ∧ redo = false := by
  intro outfiles evtid redo
  cases redo <;>
    simp [process_action, exists_flag, List.contains, List.elem_iff]

/-- Claim C9 (counterexample): `sector_hits` does not leave the augmented
input hit table unchanged: on a one-row table with columns `u`, `v` and a
two-sector configuration, the table after the call differs from the input
(the `ur` and `vr` columns were assigned in place). -/
theorem sector_hits_mutates_input :
    (sector_hits twoSectorCfg 1 0 1 oneRowHits).1 ≠ oneRowHits := by
  decide

/-- Claim C7 (counterexample): the clustering accumulator can receive more
than `max_batches_for_clustering` per-batch arrays: with
`max_batches_for_clustering = 1`, clustering configured and a 3-batch
loader, the key `x` accumulates 2 arrays (batch indices 0 and 1). -/
theorem cluster_accum_count_exceeds_max :
    (test_step_cluster_accum [xKey] true 1 none 3 xKey).length = 2
    ∧ ¬ (test_step_cluster_accum [xKey] true 1 none 3 xKey).length ≤ 1 := by
  decide

/-- Claim C3 (counterexample): a non-finite total that is not NaN is not
raised on: a single loss returning `+∞` with weight `1` yields the infinite
total, `torch.isnan` is false on it, and `get_batch_losses` returns it
silently instead of raising. -/
theorem infinite_total_not_raised :
    get_batch_losses [(lKey, LossReturn.scalar FloatV.inf, LossReturn.scalar 1)]
        = some (FloatV.inf, [(lKey, FloatV.inf)], [(lKey, 1)])
    ∧ FloatV.isfinite FloatV.inf = false := by
  decide

/-- Claim C3 (amended): `get_batch_losses` raises if and only if the total
weighted loss is NaN; when it returns, the returned total is exactly the
computed weighted total, never clamped or replaced (infinite non-NaN totals
pass through). -/
theorem get_batch_losses_nan_policy :
    ∀ cfg : LossConfig,
      (get_batch_losses cfg = none ↔ (batch_total cfg).isnan = true)
      ∧ (get_batch_losses cfg).map (fun r => r.1)
          = (if (batch_total cfg).isnan then none else some (batch_total cfg)) := by
  intro cfg
  unfold get_batch_losses
  by_cases h : (batch_total cfg).isnan <;> simp [h]

/-! ### Helper lemmas on association-list primitives -/

theorem find?_cons_key {α : Type} (k : String) (p : String × α) (t : List (String × α)) :
    (p :: t).find? (fun q => q.1 == k)
      = if p.1 = k then some p else t.find? (fun q => q.1 == k) := by
  rw [List.find?_cons]
  by_cases hp : p.1 = k
  · simp [hp]
  · have hb : (p.1 == k) = false := beq_eq_false_iff_ne.mpr hp
    simp [hp, hb]

theorem find?_map_replace {α : Type} (k k' : String) (v : α) (h : k ≠ k') :
    ∀ d : List (String × α),
      (d.map (fun q => if q.1 == k' then (k', v) else q)).find? (fun p => p.1 == k)
        = d.find? (fun p => p.1 == k)
  | [] => rfl
  | p :: t => by
      have hk'k : ¬ (k' = k) := fun hh => h hh.symm
      have ih := find?_map_replace k k' v h t
      simp only [beq_iff_eq] at ih
      by_cases hp : p.1 = k'
      · simp [find?_cons_key, hp, hk'k, ih, -List.find?_map]
      · by_cases hpk : p.1 = k
        · simp [find?_cons_key, hp, hpk, h, -List.find?_map]
        · simp [find?_cons_key, hp, hpk, ih, h, -List.find?_map]

theorem find?_append_single_ne {α : Type} (k k' : String) (v : α) (h : k ≠ k') :
    ∀ d : List (String × α),
      (d ++ [(k', v)]).find? (fun p => p.1 == k) = d.find? (fun p => p.1 == k)
  | [] => by
      have hk'k : ¬ (k' = k) := fun hh => h hh.symm
      simp [hk'k]
  | p :: t => by
      have ih := find?_append_single_ne k k' v h t
      simp only [beq_iff_eq] at ih
      by_cases hpk : p.1 = k
      · simp [List.cons_append, find?_cons_key, hpk, ih]
      · simp [List.cons_append, find?_cons_key, hpk, ih]

theorem getCol_setCol_ne (r : Row) (k k' : String) (v : ℚ) (h : k ≠ k') :
    getCol (setCol r k' v) k = getCol r k := by
  unfold getCol setCol
  by_cases hex : r.any (fun p => p.1 == k')
  · rw [if_pos hex, find?_map_replace k k' v h r]
  · rw [if_neg hex, find?_append_single_ne k k' v h r]

/-! ### Claim C1: sector boundary slope and sector membership -/

/-- Claim C1 (counterexample): the boundary slope is not `tan(theta)`.  At
`n_sectors = 8`, `s = 1` the sector angle is `theta = 1*2*pi/8 = pi/4`, and
the claimed slope `tan(pi/4) = 1` differs from what line 114 computes,
namely `arctan(pi/4) < 1`. -/
theorem sector_slope_is_not_tan :
    sector_theta_eq 8 1 (Real.pi / 4)
    ∧ ¬ sector_slope_eq (Real.pi / 4) (Real.tan (Real.pi / 4)) := by
  constructor
  · unfold sector_theta_eq
    push_cast
    ring
  · unfold sector_slope_eq
    rw [Real.tan_pi_div_four]
    intro hcontra
    have h4 : Real.pi / 4 < 1 := by
      have := Real.pi_lt_d2
      linarith
    have h2 : Real.arctan (Real.pi / 4) < Real.arctan 1 := Real.arctan_strictMono h4
    rw [Real.arctan_one] at h2
    linarith

/-- Claim C1 (amended): for `n_sectors > 1` the boundary slope is computed
as `arctan(theta)` (not `tan(theta)`) with `theta = s*2*pi/n_sectors`, and —
with that slope value — the extended sector returned by `sector_hits`
contains exactly the hits of the rotated table whose sector-local
coordinates satisfy `|vr| < sector_ds*slope*ur + sector_di` and `ur > 0`,
while the strict (diagnostic) sector keeps exactly those with
`|vr| < slope*ur` and `ur ≥ 0`. -/
theorem sector_hits_membership (cfg : SectorConfig) (cosT sinT slope : ℚ) (hits : DF)
    (hns : cfg.n_sectors ≠ 1) :
    (∀ theta : ℝ, sector_slope_eq theta (Real.arctan theta))
    ∧ sector_hits cfg cosT sinT slope hits
        = (rotate_uv cosT sinT hits,
            SectorResult.pair
              (extended_sector cfg.sector_ds cfg.sector_di slope (rotate_uv cosT sinT hits))
              (sector_measurements cfg slope (rotate_uv cosT sinT hits)))
    ∧ (∀ r : Row,
        r ∈ extended_sector cfg.sector_ds cfg.sector_di slope (rotate_uv cosT sinT hits)
          ↔ r ∈ rotate_uv cosT sinT hits
            ∧ |getCol r vrCol| < cfg.sector_ds * slope * getCol r urCol + cfg.sector_di
            ∧ getCol r urCol > 0)
    ∧ (∀ r : Row,
        r ∈ strict_sector slope (rotate_uv cosT sinT hits)
          ↔ r ∈ rotate_uv cosT sinT hits
            ∧ |getCol r vrCol| < slope * getCol r urCol
            ∧ getCol r urCol ≥ 0) := by
  refine ⟨fun _ => rfl, ?_, ?_, ?_⟩
  · unfold sector_hits
    rw [if_neg hns]
  · intro r
    simp only [extended_sector, List.mem_filter, Bool.and_eq_true, decide_eq_true_eq]
    constructor
    · rintro ⟨hm, ⟨⟨h1, h2⟩, h3⟩⟩
      exact ⟨hm, abs_lt.mpr ⟨by linarith, h2⟩, h3⟩
    · rintro ⟨hm, habs, h3⟩
      obtain ⟨hl, hr⟩ := abs_lt.mp habs
      exact ⟨hm, ⟨⟨by linarith, hr⟩, h3⟩⟩
  · intro r
    simp only [strict_sector, List.mem_filter, Bool.and_eq_true, decide_eq_true_eq]
    constructor
    · rintro ⟨hm, ⟨⟨h1, h2⟩, h3⟩⟩
      exact ⟨hm, abs_lt.mpr ⟨by linarith, h2⟩, h3⟩
    · rintro ⟨hm, habs, h3⟩
      obtain ⟨hl, hr⟩ := abs_lt.mp habs
      exact ⟨hm, ⟨⟨by linarith, hr⟩, h3⟩⟩

/-- Witness for `sector_hits_membership` at a concrete two-sector
configuration and one-row table. -/
theorem sector_hits_membership_witness :
    twoSectorCfg.n_sectors ≠ 1
    ∧ ((∀ theta : ℝ, sector_slope_eq theta (Real.arctan theta))
      ∧ sector_hits twoSectorCfg 1 0 1 oneRowHits
          = (rotate_uv 1 0 oneRowHits,
              SectorResult.pair
                (extended_sector twoSectorCfg.sector_ds twoSectorCfg.sector_di 1
                  (rotate_uv 1 0 oneRowHits))
                (sector_measurements twoSectorCfg 1 (rotate_uv 1 0 oneRowHits)))
      ∧ (∀ r : Row,
          r ∈ extended_sector twoSectorCfg.sector_ds twoSectorCfg.sector_di 1
                (rotate_uv 1 0 oneRowHits)
            ↔ r ∈ rotate_uv 1 0 oneRowHits
              ∧ |getCol r vrCol| < twoSectorCfg.sector_ds * 1 * getCol r urCol
                  + twoSectorCfg.sector_di
              ∧ getCol r urCol > 0)
      ∧ (∀ r : Row,
          r ∈ strict_sector 1 (rotate_uv 1 0 oneRowHits)
            ↔ r ∈ rotate_uv 1 0 oneRowHits
              ∧ |getCol r vrCol| < 1 * getCol r urCol
              ∧ getCol r urCol ≥ 0)) :=
  ⟨by decide, sector_hits_membership twoSectorCfg 1 0 1 oneRowHits (by decide)⟩

/-- Claim C9 (amended): for `n_sectors > 1`, `sector_hits` mutates the
input hit table exactly by assigning the `ur` and `vr` columns in place:
the table after the call is the rotated table, with the same number of
rows, and every column other than `ur` and `vr` reads unchanged in every
row. -/
theorem sector_hits_frame (cfg : SectorConfig) (cosT sinT slope : ℚ) (hits : DF)
    (hns : cfg.n_sectors ≠ 1) :
    (sector_hits cfg cosT sinT slope hits).1 = rotate_uv cosT sinT hits
    ∧ (rotate_uv cosT sinT hits).length = hits.length
    ∧ ∀ k : String, k ≠ urCol → k ≠ vrCol →
        (rotate_uv cosT sinT hits).map (fun r => getCol r k)
          = hits.map (fun r => getCol r k) := by
  refine ⟨?_, ?_, ?_⟩
  · unfold sector_hits
    rw [if_neg hns]
  · unfold rotate_uv
    rw [List.length_map, List.length_map]
  · intro k hku hkv
    unfold rotate_uv
    rw [List.map_map, List.map_map]
    have hfun : ∀ r : Row,
        getCol (setCol (setCol r urCol (getCol r uCol * cosT - getCol r vCol * sinT)) vrCol
          (getCol (setCol r urCol (getCol r uCol * cosT - getCol r vCol * sinT)) uCol * sinT
            + getCol (setCol r urCol (getCol r uCol * cosT - getCol r vCol * sinT)) vCol * cosT)) k
          = getCol r k := by
      intro r
      rw [getCol_setCol_ne _ _ _ _ hkv, getCol_setCol_ne _ _ _ _ hku]
    exact List.map_congr_left (fun r _ => hfun r)

/-- Witness for `sector_hits_frame` at a concrete configuration, table and
column. -/
theorem sector_hits_frame_witness :
    twoSectorCfg.n_sectors ≠ 1
    ∧ ((sector_hits twoSectorCfg 1 0 1 oneRowHits).1 = rotate_uv 1 0 oneRowHits
      ∧ (rotate_uv 1 0 oneRowHits).length = oneRowHits.length
      ∧ ∀ k : String, k ≠ urCol → k ≠ vrCol →
          (rotate_uv 1 0 oneRowHits).map (fun r => getCol r k)
            = oneRowHits.map (fun r => getCol r k)) :=
  ⟨by decide, sector_hits_frame twoSectorCfg 1 0 1 oneRowHits (by decide)⟩

/-! ### Claim C2: OOM recovery policy in `training_step` -/

theorem training_step_oom_skip (msg : String) (h : is_oom_message msg = true) (n : ℕ)
    (hn : n + 1 ≤ 10) :
    training_step n (BodyOutcome.runtimeError msg) = (n + 1, StepResult.skipped) := by
  have hgt : ¬ (n + 1 > 10) := by omega
  simp [training_step, h, hgt]

theorem run_steps_cons_oom_skip (msg : String) (h : is_oom_message msg = true) (n : ℕ)
    (hn : n + 1 ≤ 10) (rest : List BodyOutcome) :
    run_training_steps n (BodyOutcome.runtimeError msg :: rest)
      = StepResult.skipped :: run_training_steps (n + 1) rest := by
  simp only [run_training_steps, training_step_oom_skip msg h n hn]

theorem run_steps_cons_oom_raise (msg : String) (h : is_oom_message msg = true) (n : ℕ)
    (hn : n + 1 > 10) (rest : List BodyOutcome) :
    run_training_steps n (BodyOutcome.runtimeError msg :: rest) = [StepResult.raised msg] := by
  have hstep : training_step n (BodyOutcome.runtimeError msg)
      = (n + 1, StepResult.raised msg) := by
    simp [training_step, h, hn]
  simp only [run_training_steps, hstep]

theorem run_steps_cons_ok (n : ℕ) (l : ℚ) (rest : List BodyOutcome) :
    run_training_steps n (BodyOutcome.ok l :: rest)
      = StepResult.loss l :: run_training_steps 0 rest := by
  simp only [run_training_steps, training_step]

theorem run_oom_all_skipped (msg : String) (h : is_oom_message msg = true) :
    ∀ (k n : ℕ), n + k ≤ 10 →
      run_training_steps n (List.replicate k (BodyOutcome.runtimeError msg))
        = List.replicate k StepResult.skipped := by
  intro k
  induction k with
  | zero => intro n _; simp [run_training_steps]
  | succ m ih =>
      intro n hn
      rw [List.replicate_succ, run_steps_cons_oom_skip msg h n (by omega),
        ih (n + 1) (by omega), List.replicate_succ]

theorem run_oom_raises (msg : String) (h : is_oom_message msg = true) :
    ∀ (k n : ℕ), n + k = 11 → 1 ≤ k →
      run_training_steps n (List.replicate k (BodyOutcome.runtimeError msg))
        = List.replicate (k - 1) StepResult.skipped ++ [StepResult.raised msg] := by
  intro k
  induction k with
  | zero => intro n _ hk; omega
  | succ m ih =>
      intro n hn _
      by_cases hm : m = 0
      · subst hm
        have hn10 : n = 10 := by omega
        subst hn10
        rw [List.replicate_succ, run_steps_cons_oom_raise msg h 10 (by omega)]
        simp
      · rw [List.replicate_succ, run_steps_cons_oom_skip msg h n (by omega),
          ih (n + 1) (by omega) (by omega)]
        have hm1 : m + 1 - 1 = (m - 1) + 1 := by omega
        rw [hm1, List.replicate_succ, List.cons_append]

/-- Claim C2 (confirmed): for every sequence of `training_step` calls, a
step whose body raises a `RuntimeError` whose message contains
"out of memory" is swallowed (no loss, batch skipped) for up to 10
consecutive occurrences and the 11th consecutive occurrence re-raises; a
successful step resets the consecutive-OOM counter to zero; and a
`RuntimeError` that is not an out-of-memory error is re-raised immediately,
on the step where it occurs.  The last conjunct is the reset scenario:
OOM, OOM, success, then 10 more OOMs, none of which raises. -/
theorem training_step_oom_policy (oom_msg other_msg : String) (l : ℚ)
    (h₁ : is_oom_message oom_msg = true) (h₂ : is_oom_message other_msg = false) :
    (∀ k, k ≤ 10 →
      run_training_steps 0 (List.replicate k (BodyOutcome.runtimeError oom_msg))
        = List.replicate k StepResult.skipped)
    ∧ run_training_steps 0 (List.replicate 11 (BodyOutcome.runtimeError oom_msg))
        = List.replicate 10 StepResult.skipped ++ [StepResult.raised oom_msg]
    ∧ (∀ n, training_step n (BodyOutcome.ok l) = (0, StepResult.loss l))
    ∧ (∀ n, training_step n (BodyOutcome.runtimeError other_msg)
        = (n, StepResult.raised other_msg))
    ∧ run_training_steps 0
        (BodyOutcome.runtimeError oom_msg :: BodyOutcome.runtimeError oom_msg ::
          BodyOutcome.ok l :: List.replicate 10 (BodyOutcome.runtimeError oom_msg))
        = StepResult.skipped :: StepResult.skipped :: StepResult.loss l ::
            List.replicate 10 StepResult.skipped := by
  refine ⟨?_, ?_, ?_, ?_, ?_⟩
  · intro k hk
    exact run_oom_all_skipped oom_msg h₁ k 0 (by omega)
  · exact run_oom_raises oom_msg h₁ 11 0 (by omega) (by omega)
  · intro n; simp [training_step]
  · intro n; simp [training_step, h₂]
  · rw [run_steps_cons_oom_skip oom_msg h₁ 0 (by omega),
      run_steps_cons_oom_skip oom_msg h₁ 1 (by omega), run_steps_cons_ok,
      run_oom_all_skipped oom_msg h₁ 10 0 (by omega)]

/-- Witness for `training_step_oom_policy` at concrete messages. -/
theorem training_step_oom_policy_witness :
    is_oom_message oomMsgSample = true
    ∧ is_oom_message otherMsgSample = false
    ∧ ((∀ k, k ≤ 10 →
        run_training_steps 0 (List.replicate k (BodyOutcome.runtimeError oomMsgSample))
          = List.replicate k StepResult.skipped)
      ∧ run_training_steps 0 (List.replicate 11 (BodyOutcome.runtimeError oomMsgSample))
          = List.replicate 10 StepResult.skipped ++ [StepResult.raised oomMsgSample]
      ∧ (∀ n, training_step n (BodyOutcome.ok 1) = (0, StepResult.loss 1))
      ∧ (∀ n, training_step n (BodyOutcome.runtimeError otherMsgSample)
          = (n, StepResult.raised otherMsgSample))
      ∧ run_training_steps 0
          (BodyOutcome.runtimeError oomMsgSample :: BodyOutcome.runtimeError oomMsgSample ::
            BodyOutcome.ok 1 :: List.replicate 10 (BodyOutcome.runtimeError oomMsgSample))
          = StepResult.skipped :: StepResult.skipped :: StepResult.loss 1 ::
              List.replicate 10 StepResult.skipped) :=
  ⟨by decide, by decide,
    training_step_oom_policy oomMsgSample otherMsgSample 1 (by decide) (by decide)⟩

/-! ### Claim C4: weighted-sum contract of the loss aggregator -/

theorem dict_update_append {α : Type} (new : List (String × α)) :
    ∀ acc : List (String × α),
      ((acc ++ new).map Prod.fst).Nodup → dict_update acc new = acc ++ new := by
  induction new with
  | nil => intro acc _; simp [dict_update]
  | cons p t ih =>
      intro acc h
      have hna : p.1 ∉ acc.map Prod.fst := by
        simp only [List.map_append, List.map_cons] at h
        have hdisj := (List.nodup_append.mp h).2.2
        exact fun hmem => hdisj hmem (List.mem_cons_self _ _)
      have hany : acc.any (fun q => q.1 == p.1) = false := by
        apply List.any_eq_false.mpr
        intro q hq
        have hne : q.1 ≠ p.1 := fun he => hna (he ▸ List.mem_map_of_mem Prod.fst hq)
        simp [beq_eq_false_iff_ne, hne]
      have hstep : dict_update acc (p :: t) = dict_update (acc ++ [p]) t := by
        unfold dict_update
        rw [List.foldl_cons]
        congr 1
        simp [hany]
      rw [hstep, ih (acc ++ [p]) (by simpa using h)]
      simp

theorem losses_foldl_flatten (cfg : LossConfig) :
    ∀ acc : List (String × FloatV),
      ((acc ++ all_unpacked_losses cfg).map Prod.fst).Nodup →
      cfg.foldl (fun a e => dict_update a (unpack_loss_returns e.1 e.2.1)) acc
        = acc ++ all_unpacked_losses cfg := by
  induction cfg with
  | nil => intro acc _; simp [all_unpacked_losses]
  | cons e t ih =>
      intro acc h
      have hflat : all_unpacked_losses (e :: t)
          = unpack_loss_returns e.1 e.2.1 ++ all_unpacked_losses t := by
        simp [all_unpacked_losses]
      rw [hflat] at h
      have hsl : List.Sublist (acc ++ unpack_loss_returns e.1 e.2.1)
          (acc ++ (unpack_loss_returns e.1 e.2.1 ++ all_unpacked_losses t)) :=
        (List.sublist_append_left _ _).append_left acc
      have hsub : ((acc ++ unpack_loss_returns e.1 e.2.1).map Prod.fst).Nodup :=
        List.Nodup.sublist (hsl.map Prod.fst) h
      rw [List.foldl_cons, dict_update_append _ acc hsub,
        ih (acc ++ unpack_loss_returns e.1 e.2.1) (by simpa [List.append_assoc] using h),
        hflat, List.append_assoc]

theorem batch_total_eq_weighted_sum (cfg : LossConfig)
    (h : ((all_unpacked_losses cfg).map Prod.fst).Nodup) :
    batch_total cfg = weighted_sum_unpacked cfg := by
  unfold batch_total weighted_sum_unpacked
  have hdict : batch_losses_dict cfg = all_unpacked_losses cfg := by
    unfold batch_losses_dict
    have := losses_foldl_flatten cfg [] (by simpa using h)
    simpa using this
  rw [hdict]

/-- Claim C4 (confirmed, under the well-formedness condition that the
unpacked sub-loss keys are pairwise distinct): the total computed by
`get_batch_losses` equals the sum over all unpacked sub-losses of the weight
assigned to that sub-loss key (default `1.0` for unspecified keys) times the
sub-loss value, and whenever `get_batch_losses` returns, the returned total
is that weighted sum. -/
theorem get_batch_losses_weighted_sum (cfg : LossConfig)
    (h : ((all_unpacked_losses cfg).map Prod.fst).Nodup) :
    batch_total cfg = weighted_sum_unpacked cfg
    ∧ ∀ t rest, get_batch_losses cfg = some (t, rest) → t = weighted_sum_unpacked cfg := by
  refine ⟨batch_total_eq_weighted_sum cfg h, ?_⟩
  intro t rest hsome
  unfold get_batch_losses at hsome
  by_cases hn : (batch_total cfg).isnan = true
  · rw [if_pos hn] at hsome
    exact absurd hsome (by simp)
  · rw [if_neg hn] at hsome
    simp only [Option.some.injEq, Prod.mk.injEq] at hsome
    rw [← hsome.1]
    exact batch_total_eq_weighted_sum cfg h

/-- Witness for `get_batch_losses_weighted_sum` at a configuration with a
scalar, a list and a mapping loss. -/
theorem get_batch_losses_weighted_sum_witness :
    ((all_unpacked_losses lossCfgSample).map Prod.fst).Nodup
    ∧ (batch_total lossCfgSample = weighted_sum_unpacked lossCfgSample
      ∧ ∀ t rest, get_batch_losses lossCfgSample = some (t, rest) →
          t = weighted_sum_unpacked lossCfgSample) :=
  ⟨by decide, get_batch_losses_weighted_sum lossCfgSample (by decide)⟩

/-! ### Claim C7: bound on the clustering accumulator -/

theorem test_step_accum_len (keys : List String) (hasCF : Bool) (maxBC : ℕ)
    (mb : Option ℕ) (k : String) :
    ∀ (m idx : ℕ) (acc : ClusterAccum),
      (test_step_accum keys hasCF maxBC mb idx m acc k).length
        ≤ (acc k).length + (maxBC + 1 - idx) := by
  intro m
  induction m with
  | zero => intro idx acc; simp [test_step_accum]
  | succ m ih =>
      intro idx acc
      rw [test_step_accum]
      by_cases hbreak : (truthy mb && decide (idx > mb.getD 0)) = true
      · rw [if_pos hbreak]
        omega
      · rw [if_neg hbreak]
        by_cases happ : (hasCF && decide (idx ≤ maxBC)) = true
        · rw [if_pos happ]
          have hidx : idx ≤ maxBC := by
            have := (Bool.and_eq_true _ _).mp happ
            exact of_decide_eq_true this.2
          have hrec := ih (idx + 1)
            (fun k' => if keys.contains k' then acc k' ++ [idx] else acc k')
          refine le_trans hrec ?_
          by_cases hk : keys.contains k = true
          · simp only [hk, if_pos]
            rw [List.length_append]
            simp
            omega
          · rw [if_neg hk]
            omega
        · rw [if_neg happ]
          refine le_trans (ih (idx + 1) acc) ?_
          omega

/-- Claim C7 (amended): in every `test_step` call, each required
clustering-input key accumulates at most `max_batches_for_clustering + 1`
per-batch arrays — the guard `_batch_idx <= max_batches_for_clustering`
with a 0-based batch index admits batch indices `0 .. max`, i.e. one more
batch than the configured maximum (the original claim's bound of
`max_batches_for_clustering` is exceeded, see the counterexample). -/
theorem cluster_accum_bounded :
    ∀ (keys : List String) (hasCF : Bool) (maxBC : ℕ) (mb : Option ℕ) (n : ℕ) (k : String),
      (test_step_cluster_accum keys hasCF maxBC mb n k).length ≤ maxBC + 1 := by
  intro keys hasCF maxBC mb n k
  have := test_step_accum_len keys hasCF maxBC mb k n 0 (fun _ => [])
  simpa using this

/-! ### Claim C8: edge pT mask and metric inputs -/

theorem mask_select_map {α β : Type} (p : β → Bool) :
    ∀ (es : List β) (xs : List α), xs.length = es.length →
      mask_select xs (es.map p)
        = ((es.zip xs).filter (fun q => p q.1)).map (fun q => q.2) := by
  intro es
  induction es with
  | nil =>
      intro xs h
      rw [List.length_nil, List.length_eq_zero] at h
      subst h
      rfl
  | cons e t ih =>
      intro xs h
      cases xs with
      | nil => simp at h
      | cons x xt =>
          have hlen : xt.length = t.length := by
            simpa using h
          by_cases hp : p e = true
          · simp only [List.map_cons, mask_select, List.zip_cons_cons, List.filter_cons,
              hp, if_pos, List.map_cons]
            have := ih xt hlen
            simp only [mask_select] at this
            simp [this, hp]
          · have hp' : p e = false := by
              cases hpe : p e
              · rfl
              · exact absurd hpe hp
            simp only [List.map_cons, mask_select, List.zip_cons_cons, List.filter_cons, hp']
            have := ih xt hlen
            simp only [mask_select] at this
            simp [this]

/-- Claim C8 (confirmed): the edge mask keeps an edge if and only if at
least one endpoint has momentum strictly above `pt_min` — equivalently, it
discards exactly the edges whose both endpoints are at or below the
threshold — and the predictions and labels fed to the classification and
AUC metrics are exactly those of the kept edges. -/
theorem edge_pt_mask_spec (edge_index : List (ℕ × ℕ)) (pt : List ℚ) (pt_min : ℚ)
    (w y : List ℚ) (hw : w.length = edge_index.length) (hy : y.length = edge_index.length) :
    edge_pt_mask edge_index pt pt_min
        = edge_index.map (fun e => decide (pt.getD e.1 0 > pt_min ∨ pt.getD e.2 0 > pt_min))
    ∧ edge_pt_mask edge_index pt pt_min
        = edge_index.map (fun e => !decide (pt.getD e.1 0 ≤ pt_min ∧ pt.getD e.2 0 ≤ pt_min))
    ∧ ec_selected_predictions w edge_index pt pt_min
        = ((edge_index.zip w).filter (fun q =>
            decide (pt.getD q.1.1 0 > pt_min) || decide (pt.getD q.1.2 0 > pt_min))).map
            (fun q => q.2)
    ∧ ec_selected_labels y edge_index pt pt_min
        = ((edge_index.zip y).filter (fun q =>
            decide (pt.getD q.1.1 0 > pt_min) || decide (pt.getD q.1.2 0 > pt_min))).map
            (fun q => q.2) := by
  refine ⟨?_, ?_, ?_, ?_⟩
  · unfold edge_pt_mask
    exact List.map_congr_left (fun e _ => (Bool.decide_or _ _).symm)
  · unfold edge_pt_mask
    refine List.map_congr_left (fun e _ => ?_)
    rw [Bool.decide_and, Bool.not_and, ← decide_not, ← decide_not]
    exact congrArg₂ (· || ·) (decide_eq_decide.mpr not_le.symm)
      (decide_eq_decide.mpr not_le.symm)
  · unfold ec_selected_predictions edge_pt_mask
    exact mask_select_map _ edge_index w hw
  · unfold ec_selected_labels edge_pt_mask
    exact mask_select_map _ edge_index y hy

/-- Witness for `edge_pt_mask_spec`: two edges with a threshold excluding
the second one. -/
theorem edge_pt_mask_spec_witness :
    ([(9 : ℚ)/10, 1/5] : List ℚ).length = ([((0 : ℕ), (1 : ℕ)), (1, 2)] : List (ℕ × ℕ)).length
    ∧ ([(1 : ℚ), 0] : List ℚ).length = ([((0 : ℕ), (1 : ℕ)), (1, 2)] : List (ℕ × ℕ)).length
    ∧ (edge_pt_mask [(0, 1), (1, 2)] [2, 1/2, 1/2] 1
          = ([(0, 1), (1, 2)] : List (ℕ × ℕ)).map (fun e =>
              decide (([(2 : ℚ), 1/2, 1/2] : List ℚ).getD e.1 0 > 1
                ∨ ([(2 : ℚ), 1/2, 1/2] : List ℚ).getD e.2 0 > 1))
      ∧ edge_pt_mask [(0, 1), (1, 2)] [2, 1/2, 1/2] 1
          = ([(0, 1), (1, 2)] : List (ℕ × ℕ)).map (fun e =>
              !decide (([(2 : ℚ), 1/2, 1/2] : List ℚ).getD e.1 0 ≤ 1
                ∧ ([(2 : ℚ), 1/2, 1/2] : List ℚ).getD e.2 0 ≤ 1))
      ∧ ec_selected_predictions [9/10, 1/5] [(0, 1), (1, 2)] [2, 1/2, 1/2] 1
          = ((([(0, 1), (1, 2)] : List (ℕ × ℕ)).zip ([9/10, 1/5] : List ℚ)).filter (fun q =>
              decide (([(2 : ℚ), 1/2, 1/2] : List ℚ).getD q.1.1 0 > 1)
                || decide (([(2 : ℚ), 1/2, 1/2] : List ℚ).getD q.1.2 0 > 1))).map
              (fun q => q.2)
      ∧ ec_selected_labels [1, 0] [(0, 1), (1, 2)] [2, 1/2, 1/2] 1
          = ((([(0, 1), (1, 2)] : List (ℕ × ℕ)).zip ([1, 0] : List ℚ)).filter (fun q =>
              decide (([(2 : ℚ), 1/2, 1/2] : List ℚ).getD q.1.1 0 > 1)
                || decide (([(2 : ℚ), 1/2, 1/2] : List ℚ).getD q.1.2 0 > 1))).map
              (fun q => q.2)) :=
  ⟨by decide, by decide,
    edge_pt_mask_spec [(0, 1), (1, 2)] [2, 1/2, 1/2] 1 [9/10, 1/5] [1, 0]
      (by decide) (by decide)⟩

/-! ### Claim C10: skip semantics of `_evaluate_cluster_metrics` -/

theorem find?_map_replace_self {α : Type} (k : String) (v : α) :
    ∀ d : List (String × α), d.any (fun q => q.1 == k) = true →
      (d.map (fun q => if q.1 == k then (k, v) else q)).find? (fun p => p.1 == k)
        = some (k, v)
  | [] => by intro h; simp at h
  | p :: t => by
      intro hex
      by_cases hp : p.1 = k
      · simp [find?_cons_key, hp]
      · have htail : t.any (fun q => q.1 == k) = true := by
          simpa [List.any_cons, beq_eq_false_iff_ne.mpr hp] using hex
        have ih := find?_map_replace_self k v t htail
        simp only [beq_iff_eq] at ih
        simp [find?_cons_key, hp, ih, -List.find?_map]

theorem find?_append_single_self {α : Type} (k : String) (v : α) :
    ∀ d : List (String × α), d.any (fun q => q.1 == k) = false →
      (d ++ [(k, v)]).find? (fun p => p.1 == k) = some (k, v)
  | [] => by intro _; simp
  | p :: t => by
      intro hex
      rw [List.any_cons, Bool.or_eq_false_iff] at hex
      have hp : ¬ (p.1 = k) := fun he => by simp [he] at hex
      simp [List.cons_append, find?_cons_key, hp,
        find?_append_single_self k v t hex.2]

theorem dict_get?_update_single_ne {α : Type} (d : List (String × α)) (k k' : String)
    (v : α) (h : k ≠ k') :
    dict_get? (dict_update d [(k', v)]) k = dict_get? d k := by
  unfold dict_update dict_get?
  simp only [List.foldl_cons, List.foldl_nil]
  by_cases hex : d.any (fun q => q.1 == k') = true
  · rw [if_pos hex, find?_map_replace k k' v h d]
  · rw [if_neg hex, find?_append_single_ne k k' v h d]

theorem dict_get?_update_single_self {α : Type} (d : List (String × α)) (k : String)
    (v : α) :
    dict_get? (dict_update d [(k, v)]) k = some v := by
  unfold dict_update dict_get?
  simp only [List.foldl_cons, List.foldl_nil]
  by_cases hex : d.any (fun q => q.1 == k) = true
  · rw [if_pos hex, find?_map_replace_self k v d hex]
    rfl
  · rw [if_neg hex, find?_append_single_self k v d (Bool.not_eq_true _ ▸ hex)]
    rfl

theorem ecm_step_eq_none {Input : Type} (input : Input) (epoch : ℕ)
    (st : List (String × ℚ) × List (String × List (String × ℚ)))
    (e : String × ClusterFct Input)
    (h : e.2 input epoch (dict_get? st.2 e.1) = none) :
    ecm_step input epoch st e = st := by
  unfold ecm_step
  rw [h]

theorem ecm_step_eq_some {Input : Type} (input : Input) (epoch : ℕ)
    (st : List (String × ℚ) × List (String × List (String × ℚ)))
    (e : String × ClusterFct Input) (r : ClusterResult)
    (h : e.2 input epoch (dict_get? st.2 e.1) = some r) :
    ecm_step input epoch st e
      = (dict_update (dict_update st.1 r.metrics)
          (r.best_params.map (fun p => (best_param_key e.1 p.1, p.2))),
         dict_update st.2 [(e.1, r.best_params)]) := by
  unfold ecm_step
  rw [h]

theorem ecm_fold_preserves_other {Input : Type} (input : Input) (epoch : ℕ) (name : String) :
    ∀ (fns : List (String × ClusterFct Input))
      (st : List (String × ℚ) × List (String × List (String × ℚ))),
      name ∉ fns.map Prod.fst →
      dict_get? (fns.foldl (ecm_step input epoch) st).2 name = dict_get? st.2 name := by
  intro fns
  induction fns with
  | nil => intro st _; rfl
  | cons e t ih =>
      intro st hnot
      rw [List.map_cons, List.mem_cons, not_or] at hnot
      rw [List.foldl_cons, ih (ecm_step input epoch st e) hnot.2]
      unfold ecm_step
      cases hres : e.2 input epoch (dict_get? st.2 e.1) with
      | none => rfl
      | some r =>
          exact dict_get?_update_single_ne st.2 name e.1 r.best_params hnot.1

/-- Claim C10 (confirmed): in `_evaluate_cluster_metrics`, a clustering
function whose callable returns `None` is skipped entirely: the result (both
metrics and best-parameter cache) is the same as if that entry were absent,
and in particular the cache entry under its name is unchanged; the cache
entry under a name is overwritten exactly when the callable under that name
returns a result object, and then it holds the returned best parameters. -/
theorem evaluate_cluster_metrics_skip_frame {Input : Type} (input : Input) (epoch : ℕ)
    (pre post : List (String × ClusterFct Input)) (name : String) (f : ClusterFct Input)
    (cache : List (String × List (String × ℚ)))
    (hnd : ((pre ++ (name, f) :: post).map Prod.fst).Nodup)
    (hskip : f input epoch (dict_get? cache name) = none) :
    evaluate_cluster_metrics input epoch (pre ++ (name, f) :: post) cache
        = evaluate_cluster_metrics input epoch (pre ++ post) cache
    ∧ dict_get? (evaluate_cluster_metrics input epoch (pre ++ (name, f) :: post) cache).2 name
        = dict_get? cache name
    ∧ ∀ (g : ClusterFct Input) (r : ClusterResult),
        g input epoch (dict_get? cache name) = some r →
        dict_get? (evaluate_cluster_metrics input epoch (pre ++ (name, g) :: post) cache).2
            name
          = some r.best_params := by
  simp only [List.map_append, List.map_cons] at hnd
  have hparts := List.nodup_append.mp hnd
  have hnpre : name ∉ pre.map Prod.fst := fun hm => hparts.2.2 hm (List.mem_cons_self _ _)
  have hnpost : name ∉ post.map Prod.fst := (List.nodup_cons.mp hparts.2.1).1
  have hst₁ : dict_get? ((pre.foldl (ecm_step input epoch) ([], cache)).2) name
      = dict_get? cache name :=
    ecm_fold_preserves_other input epoch name pre ([], cache) hnpre
  have hsplit : ∀ fct : ClusterFct Input,
      evaluate_cluster_metrics input epoch (pre ++ (name, fct) :: post) cache
        = post.foldl (ecm_step input epoch)
            (ecm_step input epoch (pre.foldl (ecm_step input epoch) ([], cache)) (name, fct)) := by
    intro fct
    unfold evaluate_cluster_metrics
    rw [List.foldl_append, List.foldl_cons]
  have hstepf : ecm_step input epoch (pre.foldl (ecm_step input epoch) ([], cache)) (name, f)
      = pre.foldl (ecm_step input epoch) ([], cache) := by
    apply ecm_step_eq_none
    show f input epoch
      (dict_get? ((pre.foldl (ecm_step input epoch) ([], cache)).2) name) = none
    rw [hst₁]
    exact hskip
  refine ⟨?_, ?_, ?_⟩
  · rw [hsplit f, hstepf]
    unfold evaluate_cluster_metrics
    rw [List.foldl_append]
  · rw [hsplit f, hstepf,
      ecm_fold_preserves_other input epoch name post _ hnpost, hst₁]
  · intro g r hg
    have hstepg : (ecm_step input epoch (pre.foldl (ecm_step input epoch) ([], cache))
        (name, g)).2
        = dict_update ((pre.foldl (ecm_step input epoch) ([], cache)).2)
            [(name, r.best_params)] := by
      rw [ecm_step_eq_some input epoch (pre.foldl (ecm_step input epoch) ([], cache))
        (name, g) r (by
          show g input epoch
            (dict_get? ((pre.foldl (ecm_step input epoch) ([], cache)).2) name) = some r
          rw [hst₁]
          exact hg)]
    rw [hsplit g, ecm_fold_preserves_other input epoch name post _ hnpost, hstepg,
      dict_get?_update_single_self]

/-- Witness for `evaluate_cluster_metrics_skip_frame`: a skipping function
next to a returning one, on an empty cache. -/
theorem evaluate_cluster_metrics_skip_frame_witness :
    ((([] : List (String × ClusterFct ℕ))
        ++ (nKey, skipFctSample) :: [(gKey, constFctSample)]).map Prod.fst).Nodup
    ∧ skipFctSample 0 0 (dict_get? ([] : List (String × List (String × ℚ))) nKey) = none
    ∧ (evaluate_cluster_metrics 0 0
          (([] : List (String × ClusterFct ℕ))
            ++ (nKey, skipFctSample) :: [(gKey, constFctSample)]) []
          = evaluate_cluster_metrics 0 0
              (([] : List (String × ClusterFct ℕ)) ++ [(gKey, constFctSample)]) []
      ∧ dict_get? (evaluate_cluster_metrics 0 0
            (([] : List (String × ClusterFct ℕ))
              ++ (nKey, skipFctSample) :: [(gKey, constFctSample)]) []).2 nKey
          = dict_get? ([] : List (String × List (String × ℚ))) nKey
      ∧ ∀ (g : ClusterFct ℕ) (r : ClusterResult),
          g 0 0 (dict_get? ([] : List (String × List (String × ℚ))) nKey) = some r →
          dict_get? (evaluate_cluster_metrics 0 0
              (([] : List (String × ClusterFct ℕ))
                ++ (nKey, g) :: [(gKey, constFctSample)]) []).2 nKey
            = some r.best_params) :=
  ⟨by decide, rfl,
    evaluate_cluster_metrics_skip_frame 0 0 [] [(gKey, constFctSample)] nKey skipFctSample []
      (by decide) rfl⟩

end GnnTracking
